import Mathlib

/-!
# OSTree image manifest instantiation

A shallow embedding of `internal/image/ostree_image.go`: the image
specification `OSTreeImage`, the general compiler
`OSTreeImage.InstantiateManifest` and the compressed-raw shortcut
`ostreeCompressedImagePipelines`.

Go pointers to pipeline stages are indices into the list of pipelines owned by
the manifest; every constructor appends one stage to that list and every field
assignment rewrites the stage at its index.  A Go `panic` is an explicit
outcome that keeps the manifest state reached when the panic was raised.
-/

set_option linter.unusedVariables false

/-! ## Collaborator data carried through unchanged -/

namespace rpmmd

/-- Modelled from the spec: `rpmmd.RepoConfig`, a package source forwarded to
the Build stage; its declaration is outside the source excerpt. -/
structure RepoConfig where
  Name : String
  BaseURL : String
  deriving DecidableEq, Repr

end rpmmd

namespace runner

/-- Modelled from the spec: `runner.Runner`, the descriptor of the execution
environment forwarded to the Build stage. -/
structure Runner where
  Name : String
  deriving DecidableEq, Repr

end runner

namespace rand

/-- Modelled from the spec: `math/rand.Rand`, the randomness source handed to
the compiler; only its seed is represented. -/
structure Rand where
  seed : Nat
  deriving DecidableEq, Repr

end rand

namespace disk

/-- Modelled from the spec: `disk.PartitionTable`, the disk layout descriptor. -/
structure PartitionTable where
  UUID : String
  TableType : String
  Size : Nat
  deriving DecidableEq, Repr

end disk

namespace users

/-- Modelled from the spec: `users.User`, an identity record. -/
structure User where
  Name : String
  deriving DecidableEq, Repr

/-- Modelled from the spec: `users.Group`, an identity record. -/
structure Group where
  Name : String
  deriving DecidableEq, Repr

end users

namespace workload

/-- Modelled from the spec: `workload.Workload`, threaded through the image
specification and not read by the compiler. -/
structure Workload where
  Name : String
  deriving DecidableEq, Repr

end workload

namespace ostree

/-- Modelled from the spec: `ostree.CommitSpec`, content hash, ref name and
source URL of an OS-tree commit. -/
structure CommitSpec where
  Ref : String
  URL : String
  Checksum : String
  deriving DecidableEq, Repr

/-- Modelled from the spec: `ostree.Remote`, the remote configuration. -/
structure Remote where
  Name : String
  URL : String
  GPGKeys : List String
  deriving DecidableEq, Repr

end ostree

namespace platform

/-- Modelled from the spec: `platform.ImageFormat`, the image-format
enumeration.  The named values are the ones the source mentions; every other
value of the enumeration is `FORMAT_OTHER`. -/
inductive ImageFormat where
  | FORMAT_RAW
  | FORMAT_QCOW2
  | FORMAT_VHD
  | FORMAT_VMDK
  | FORMAT_GCE
  | FORMAT_OTHER (code : Nat)
  deriving DecidableEq, Repr

/-- Modelled from the spec: `platform.Platform`, the platform profile, reduced
to what its two getters used by the compiler return plus an architecture tag. -/
structure Platform where
  arch : String
  imageFormat : ImageFormat
  qcow2Compat : String
  deriving DecidableEq, Repr

/-- Getter `Platform.GetImageFormat()`. -/
def Platform.GetImageFormat (p : Platform) : ImageFormat := p.imageFormat

/-- Getter `Platform.GetQCOW2Compat()`. -/
def Platform.GetQCOW2Compat (p : Platform) : String := p.qcow2Compat

end platform

/-! ## The manifest package: stages and their constructors -/

namespace manifest

/-- A pointer to a pipeline stage: its position in the manifest. -/
abbrev PipelineRef := Nat

/-- Modelled from the spec: the names and default output filenames the stage
constructors of the manifest package assign; the constructors are outside the
source excerpt, so these constants are a parameter of the development. -/
structure Constants where
  buildName : String
  deploymentName : String
  rawImageName : String
  qcow2Name : String
  xzName : String
  rawImageFilename : String
  qcow2Filename : String
  qcow2Compat : String
  xzFilename : String
  deriving DecidableEq, Repr

/-- Modelled from the spec: the part common to every stage, namely the handle
of the manifest it was registered in, its name, the Build stage it runs in
(absent for the Build stage itself), the checkpoint mark and the export mark. -/
structure Base where
  manifest : Nat
  name : String
  build : Option PipelineRef
  checkpoint : Bool
  exported : Bool
  deriving DecidableEq, Repr

/-- Modelled from the spec: the Build stage, built from a runner and
repositories. -/
structure Build where
  base : Base
  runner : runner.Runner
  repos : List rpmmd.RepoConfig
  deriving DecidableEq, Repr

/-- Modelled from the spec: the Deployment stage, with its constructor
parameters and its eight fields assigned after construction. -/
structure OSTreeDeployment where
  base : Base
  commit : ostree.CommitSpec
  osName : String
  ignition : Bool
  ignitionPlatform : String
  platform : platform.Platform
  PartitionTable : Option disk.PartitionTable
  Remote : ostree.Remote
  KernelOptionsAppend : List String
  Keyboard : String
  Locale : String
  Users : List users.User
  Groups : List users.Group
  SysrootReadOnly : Bool
  deriving DecidableEq, Repr

/-- Modelled from the spec: the Raw-Image stage, child of a Deployment stage. -/
structure RawOSTreeImage where
  base : Base
  platform : platform.Platform
  treePipeline : PipelineRef
  Filename : String
  deriving DecidableEq, Repr

/-- Modelled from the spec: the QCOW2 conversion stage, built from the
manifest handle, name and filename of its predecessor. -/
structure QCOW2 where
  base : Base
  imgManifest : Nat
  imgName : String
  imgFilename : String
  Filename : String
  Compat : String
  deriving DecidableEq, Repr

/-- Modelled from the spec: the compression stage, child of any stage. -/
structure XZ where
  base : Base
  imgPipeline : PipelineRef
  Filename : String
  deriving DecidableEq, Repr

/-- A stage of the pipeline graph. -/
inductive Pipeline where
  | build (p : Build)
  | ostreeDeployment (p : OSTreeDeployment)
  | rawOSTreeImage (p : RawOSTreeImage)
  | qcow2 (p : QCOW2)
  | xz (p : XZ)
  deriving DecidableEq, Repr

/-- The kinds of stage. -/
inductive Kind where
  | build
  | ostreeDeployment
  | rawOSTreeImage
  | qcow2
  | xz
  deriving DecidableEq, Repr

/-- Kind of a stage. -/
def Pipeline.kind : Pipeline → Kind
  | .build _ => .build
  | .ostreeDeployment _ => .ostreeDeployment
  | .rawOSTreeImage _ => .rawOSTreeImage
  | .qcow2 _ => .qcow2
  | .xz _ => .xz

/-- Common part of a stage. -/
def Pipeline.base : Pipeline → Base
  | .build p => p.base
  | .ostreeDeployment p => p.base
  | .rawOSTreeImage p => p.base
  | .qcow2 p => p.base
  | .xz p => p.base

/-- Replace the common part of a stage. -/
def Pipeline.mapBase (f : Base → Base) : Pipeline → Pipeline
  | .build p => .build { p with base := f p.base }
  | .ostreeDeployment p => .ostreeDeployment { p with base := f p.base }
  | .rawOSTreeImage p => .rawOSTreeImage { p with base := f p.base }
  | .qcow2 p => .qcow2 { p with base := f p.base }
  | .xz p => .xz { p with base := f p.base }

/-- Output filename of a stage, for the stages that have the field. -/
def Pipeline.filename? : Pipeline → Option String
  | .build _ => none
  | .ostreeDeployment _ => none
  | .rawOSTreeImage p => some p.Filename
  | .qcow2 p => some p.Filename
  | .xz p => some p.Filename

/-- Filename a constructor gives a stage of this kind. -/
def Constants.defaultFilename? (c : Constants) : Pipeline → Option String
  | .build _ => none
  | .ostreeDeployment _ => none
  | .rawOSTreeImage _ => some c.rawImageFilename
  | .qcow2 _ => some c.qcow2Filename
  | .xz _ => some c.xzFilename

/-- The manifest: a handle (its identity as a Go pointer) and the stages
registered in it, in construction order. -/
structure Manifest where
  handle : Nat
  pipelines : List Pipeline
  deriving DecidableEq, Repr

/-- Rewrite the element at position `n` of a list, if there is one. -/
def updateAt {α : Type} (f : α → α) : Nat → List α → List α
  | _, [] => []
  | 0, x :: xs => f x :: xs
  | n + 1, x :: xs => x :: updateAt f n xs

/-- Register a new stage in the manifest and return the pointer to it. -/
def Manifest.addPipeline (m : Manifest) (p : Pipeline) : Manifest × PipelineRef :=
  ({ m with pipelines := m.pipelines ++ [p] }, m.pipelines.length)

/-- Rewrite the stage a pointer designates. -/
def Manifest.update (m : Manifest) (r : PipelineRef) (f : Pipeline → Pipeline) : Manifest :=
  { m with pipelines := updateAt f r m.pipelines }

/-- Dereference a pointer to a stage. -/
def Manifest.get? (m : Manifest) (r : PipelineRef) : Option Pipeline :=
  m.pipelines[r]?

/-- Assignment to fields of a Deployment stage through its pointer. -/
def Manifest.setOSTreeDeployment (m : Manifest) (r : PipelineRef)
    (f : OSTreeDeployment → OSTreeDeployment) : Manifest :=
  m.update r fun
    | .ostreeDeployment p => .ostreeDeployment (f p)
    | q => q

/-- Assignment to fields of a Raw-Image stage through its pointer. -/
def Manifest.setRawOSTreeImage (m : Manifest) (r : PipelineRef)
    (f : RawOSTreeImage → RawOSTreeImage) : Manifest :=
  m.update r fun
    | .rawOSTreeImage p => .rawOSTreeImage (f p)
    | q => q

/-- Assignment to fields of a QCOW2 stage through its pointer. -/
def Manifest.setQCOW2 (m : Manifest) (r : PipelineRef) (f : QCOW2 → QCOW2) : Manifest :=
  m.update r fun
    | .qcow2 p => .qcow2 (f p)
    | q => q

/-- Assignment to fields of an XZ stage through its pointer. -/
def Manifest.setXZ (m : Manifest) (r : PipelineRef) (f : XZ → XZ) : Manifest :=
  m.update r fun
    | .xz p => .xz (f p)
    | q => q

/-- Read a Raw-Image stage through its pointer. -/
def Manifest.getRawOSTreeImage? (m : Manifest) (r : PipelineRef) : Option RawOSTreeImage :=
  match m.get? r with
  | some (.rawOSTreeImage p) => some p
  | _ => none

/-- Modelled from the spec: `manifest.NewBuild(m, runner, repos)`, the Build
stage constructor. -/
def NewBuild (c : Constants) (m : Manifest) (runner : runner.Runner)
    (repos : List rpmmd.RepoConfig) : Manifest × PipelineRef :=
  m.addPipeline (.build
    { base := { manifest := m.handle, name := c.buildName, build := none,
                checkpoint := false, exported := false }
      runner := runner
      repos := repos })

/-- Modelled from the spec: `Checkpoint()`, which marks a stage as
checkpointable. -/
def Checkpoint (m : Manifest) (r : PipelineRef) : Manifest :=
  m.update r (Pipeline.mapBase fun b => { b with checkpoint := true })

/-- Modelled from the spec: `manifest.NewOSTreeDeployment(m, build, commit,
osName, ignition, ignitionPlatform, platform)`, the Deployment stage
constructor; the eight fields assigned afterwards start at their zero values. -/
def NewOSTreeDeployment (c : Constants) (m : Manifest) (buildPipeline : PipelineRef)
    (commit : ostree.CommitSpec) (osName : String) (ignition : Bool)
    (ignitionPlatform : String) (pf : platform.Platform) : Manifest × PipelineRef :=
  m.addPipeline (.ostreeDeployment
    { base := { manifest := m.handle, name := c.deploymentName, build := some buildPipeline,
                checkpoint := false, exported := false }
      commit := commit
      osName := osName
      ignition := ignition
      ignitionPlatform := ignitionPlatform
      platform := pf
      PartitionTable := none
      Remote := { Name := "", URL := "", GPGKeys := [] }
      KernelOptionsAppend := []
      Keyboard := ""
      Locale := ""
      Users := []
      Groups := []
      SysrootReadOnly := false })

/-- Modelled from the spec: `manifest.NewRawOStreeImage(m, build, platform,
treePipeline)`, the Raw-Image stage constructor. -/
def NewRawOStreeImage (c : Constants) (m : Manifest) (buildPipeline : PipelineRef)
    (pf : platform.Platform) (treePipeline : PipelineRef) : Manifest × PipelineRef :=
  m.addPipeline (.rawOSTreeImage
    { base := { manifest := m.handle, name := c.rawImageName, build := some buildPipeline,
                checkpoint := false, exported := false }
      platform := pf
      treePipeline := treePipeline
      Filename := c.rawImageFilename })

/-- Modelled from the spec: `manifest.NewQCOW2(m, build, imgManifest, imgName,
imgFilename)`, the QCOW2 stage constructor. -/
def NewQCOW2 (c : Constants) (m : Manifest) (buildPipeline : PipelineRef)
    (imgManifest : Nat) (imgName : String) (imgFilename : String) : Manifest × PipelineRef :=
  m.addPipeline (.qcow2
    { base := { manifest := m.handle, name := c.qcow2Name, build := some buildPipeline,
                checkpoint := false, exported := false }
      imgManifest := imgManifest
      imgName := imgName
      imgFilename := imgFilename
      Filename := c.qcow2Filename
      Compat := c.qcow2Compat })

/-- Modelled from the spec: `manifest.NewXZ(m, build, imgPipeline)`, the
compression stage constructor. -/
def NewXZ (c : Constants) (m : Manifest) (buildPipeline : PipelineRef)
    (imgPipeline : PipelineRef) : Manifest × PipelineRef :=
  m.addPipeline (.xz
    { base := { manifest := m.handle, name := c.xzName, build := some buildPipeline,
                checkpoint := false, exported := false }
      imgPipeline := imgPipeline
      Filename := c.xzFilename })

end manifest

namespace artifact

/-- Modelled from the spec: `artifact.Artifact`, the handle of the stage whose
output is exported and the filename it is written under. -/
structure Artifact where
  pipeline : manifest.PipelineRef
  filename : String
  deriving DecidableEq, Repr

end artifact

namespace manifest

/-- Modelled from the spec: `Export()` on a stage with an output filename.
The stage is marked as exported and the artifact names the stage and the
filename it has at the time of the call.  `none` stands for a dangling
pointer. -/
def Export (m : Manifest) (r : PipelineRef) : Option (Manifest × artifact.Artifact) :=
  match m.get? r with
  | some p =>
    match p.filename? with
    | some fn =>
      some (m.update r (Pipeline.mapBase fun b => { b with exported := true }),
            { pipeline := r, filename := fn })
    | none => none
  | none => none

end manifest

/-! ## The image package -/

namespace image

open manifest

/-- Modelled from the spec: the embedded `image.Base`, which carries the name
of the image kind. -/
structure Base where
  name : String
  deriving DecidableEq, Repr

/-- Constructor `NewBase(name)`. -/
def NewBase (name : String) : Base := { name := name }

/-- The image specification `OSTreeImage`. -/
structure OSTreeImage where
  Base : Base
  Platform : platform.Platform
  Workload : workload.Workload
  PartitionTable : Option disk.PartitionTable
  Users : List users.User
  Groups : List users.Group
  Commit : ostree.CommitSpec
  SysrootReadOnly : Bool
  Remote : ostree.Remote
  OSName : String
  KernelOptionsAppend : List String
  Keyboard : String
  Locale : String
  Filename : String
  Ignition : Bool
  IgnitionPlatform : String
  Compression : String
  deriving DecidableEq, Repr

/-- The value a Go `panic` is raised with.  `invalidImageFormat` is
`panic("invalid image format for image kind")`, `unsupportedCompression c` is
`panic(fmt.Sprintf("unsupported compression type %q", c))`, and
`nilDereference` is the runtime fault of reading through a dangling pointer. -/
inductive Fault where
  | invalidImageFormat
  | unsupportedCompression (compression : String)
  | nilDereference
  deriving DecidableEq, Repr

/-- How a call of `InstantiateManifest` ends: it returns the pair
`(*artifact.Artifact, error)` or it panics. -/
inductive Outcome where
  | returned (artifact : Option artifact.Artifact) (err : Option String)
  | panicked (fault : Fault)
  deriving DecidableEq, Repr

/-- The shortcut `ostreeCompressedImagePipelines(img, m, buildPipeline)`; it
returns the manifest state it leaves and the pointer to the XZ stage. -/
def ostreeCompressedImagePipelines (c : Constants) (img : OSTreeImage) (m : Manifest)
    (buildPipeline : PipelineRef) : Manifest × PipelineRef :=
  let (m, osPipeline) := NewOSTreeDeployment c m buildPipeline img.Commit img.OSName
    img.Ignition img.IgnitionPlatform img.Platform
  let m := m.setOSTreeDeployment osPipeline fun p => { p with PartitionTable := img.PartitionTable }
  let m := m.setOSTreeDeployment osPipeline fun p => { p with Remote := img.Remote }
  let m := m.setOSTreeDeployment osPipeline fun p =>
    { p with KernelOptionsAppend := img.KernelOptionsAppend }
  let m := m.setOSTreeDeployment osPipeline fun p => { p with Keyboard := img.Keyboard }
  let m := m.setOSTreeDeployment osPipeline fun p => { p with Locale := img.Locale }
  let m := m.setOSTreeDeployment osPipeline fun p => { p with Users := img.Users }
  let m := m.setOSTreeDeployment osPipeline fun p => { p with Groups := img.Groups }
  let m := m.setOSTreeDeployment osPipeline fun p => { p with SysrootReadOnly := img.SysrootReadOnly }
  let (m, imagePipeline) := NewRawOStreeImage c m buildPipeline img.Platform osPipeline
  let (m, xzPipeline) := NewXZ c m buildPipeline imagePipeline
  let m := m.setXZ xzPipeline fun p => { p with Filename := img.Filename }
  (m, xzPipeline)

/-- The first `switch` of `InstantiateManifest`, on the image format: it
yields the stage to compress and its exported artifact, or panics. -/
def formatSwitch (c : Constants) (img : OSTreeImage) (m : Manifest)
    (buildPipeline imagePipeline : PipelineRef) :
    Manifest × Except Fault (PipelineRef × Option artifact.Artifact) :=
  match img.Platform.GetImageFormat with
  | .FORMAT_RAW =>
    let m := if img.Compression = "" then
        m.setRawOSTreeImage imagePipeline fun p => { p with Filename := img.Filename }
      else m
    let artifactPipeline := imagePipeline
    match Export m imagePipeline with
    | some (m, artifact) => (m, .ok (artifactPipeline, some artifact))
    | none => (m, .error .nilDereference)
  | .FORMAT_QCOW2 =>
    match m.getRawOSTreeImage? imagePipeline with
    | none => (m, .error .nilDereference)
    | some image =>
      let (m, qcow2Pipeline) := NewQCOW2 c m buildPipeline image.base.manifest image.base.name
        image.Filename
      let m := if img.Compression = "" then
          m.setQCOW2 qcow2Pipeline fun p => { p with Filename := img.Filename }
        else m
      let m := m.setQCOW2 qcow2Pipeline fun p => { p with Compat := img.Platform.GetQCOW2Compat }
      let artifactPipeline := qcow2Pipeline
      match Export m qcow2Pipeline with
      | some (m, artifact) => (m, .ok (artifactPipeline, some artifact))
      | none => (m, .error .nilDereference)
  | _ => (m, .error .invalidImageFormat)

/-- The second `switch` of `InstantiateManifest`, on the compression string,
followed by `return artifact, nil`. -/
def compressionSwitch (c : Constants) (img : OSTreeImage) (m : Manifest)
    (buildPipeline artifactPipeline : PipelineRef) (artifact : Option artifact.Artifact) :
    Manifest × Outcome :=
  if img.Compression = "xz" then
    let (m, xzPipeline) := NewXZ c m buildPipeline artifactPipeline
    let m := m.setXZ xzPipeline fun p => { p with Filename := img.Filename }
    match Export m xzPipeline with
    | some (m, artifact) => (m, .returned (some artifact) none)
    | none => (m, .panicked .nilDereference)
  else if img.Compression = "" then
    (m, .returned artifact none)
  else
    (m, .panicked (.unsupportedCompression img.Compression))

/-- The method `OSTreeImage.InstantiateManifest(m, repos, runner, rng)`; it
returns the manifest state it leaves and how the call ended. -/
def OSTreeImage.InstantiateManifest (c : Constants) (img : OSTreeImage) (m : Manifest)
    (repos : List rpmmd.RepoConfig) (runner : runner.Runner) (rng : rand.Rand) :
    Manifest × Outcome :=
  let (m, buildPipeline) := NewBuild c m runner repos
  let m := Checkpoint m buildPipeline
  let (m, osPipeline) := NewOSTreeDeployment c m buildPipeline img.Commit img.OSName
    img.Ignition img.IgnitionPlatform img.Platform
  let m := m.setOSTreeDeployment osPipeline fun p => { p with PartitionTable := img.PartitionTable }
  let m := m.setOSTreeDeployment osPipeline fun p => { p with Remote := img.Remote }
  let m := m.setOSTreeDeployment osPipeline fun p =>
    { p with KernelOptionsAppend := img.KernelOptionsAppend }
  let m := m.setOSTreeDeployment osPipeline fun p => { p with Keyboard := img.Keyboard }
  let m := m.setOSTreeDeployment osPipeline fun p => { p with Locale := img.Locale }
  let m := m.setOSTreeDeployment osPipeline fun p => { p with Users := img.Users }
  let m := m.setOSTreeDeployment osPipeline fun p => { p with Groups := img.Groups }
  let m := m.setOSTreeDeployment osPipeline fun p => { p with SysrootReadOnly := img.SysrootReadOnly }
  let (m, imagePipeline) := NewRawOStreeImage c m buildPipeline img.Platform osPipeline
  match formatSwitch c img m buildPipeline imagePipeline with
  | (m, .error fault) => (m, .panicked fault)
  | (m, .ok (artifactPipeline, artifact)) =>
    compressionSwitch c img m buildPipeline artifactPipeline artifact

/-! ## Sample inputs -/

/-- Sample constants of the manifest package. -/
def sampleConstants : Constants :=
  { buildName := "build", deploymentName := "ostree-deployment", rawImageName := "image",
    qcow2Name := "qcow2", xzName := "xz", rawImageFilename := "disk.img",
    qcow2Filename := "image.qcow2", qcow2Compat := "", xzFilename := "image.xz" }

/-- Sample image specification with the given format and compression. -/
def sampleImage (format : platform.ImageFormat) (compression : String) : OSTreeImage :=
  { Base := NewBase "ostree-image"
    Platform := { arch := "x86_64", imageFormat := format, qcow2Compat := "1.1" }
    Workload := { Name := "" }
    PartitionTable := some { UUID := "D209C89E", TableType := "gpt", Size := 4096 }
    Users := [{ Name := "core" }, { Name := "admin" }]
    Groups := [{ Name := "wheel" }]
    Commit := { Ref := "fedora/stable/x86_64/iot", URL := "https://example.org/repo", Checksum := "abc123" }
    SysrootReadOnly := true
    Remote := { Name := "fedora-iot", URL := "https://example.org/repo", GPGKeys := [] }
    OSName := "fedora-iot"
    KernelOptionsAppend := ["modprobe.blacklist=vc4", "rw"]
    Keyboard := "us"
    Locale := "en_US.UTF-8"
    Filename := "image.out"
    Ignition := true
    IgnitionPlatform := "metal"
    Compression := compression }

/-- A fresh manifest with the given handle. -/
def freshManifest (handle : Nat) : Manifest := { handle := handle, pipelines := [] }

/-- Sample repositories. -/
def sampleRepos : List rpmmd.RepoConfig := [{ Name := "fedora", BaseURL := "https://example.org/fedora" }]

/-- Sample runner. -/
def sampleRunner : runner.Runner := { Name := "org.osbuild.fedora38" }

end image


/-! ## Stages written out, for stating what the compiler builds -/

namespace image

open manifest

/-- The checkpointed Build stage registered in manifest `h`. -/
def buildStage (c : Constants) (h : Nat) (runner : runner.Runner)
    (repos : List rpmmd.RepoConfig) : Pipeline :=
  .build
    { base := { manifest := h, name := c.buildName, build := none,
                checkpoint := true, exported := false }
      runner := runner
      repos := repos }

/-- The Deployment stage of `img` registered in manifest `h` under Build
stage `b`, after its eight fields have been copied from `img`. -/
def deploymentStage (c : Constants) (img : OSTreeImage) (h : Nat) (b : PipelineRef) : Pipeline :=
  .ostreeDeployment
    { base := { manifest := h, name := c.deploymentName, build := some b,
                checkpoint := false, exported := false }
      commit := img.Commit
      osName := img.OSName
      ignition := img.Ignition
      ignitionPlatform := img.IgnitionPlatform
      platform := img.Platform
      PartitionTable := img.PartitionTable
      Remote := img.Remote
      KernelOptionsAppend := img.KernelOptionsAppend
      Keyboard := img.Keyboard
      Locale := img.Locale
      Users := img.Users
      Groups := img.Groups
      SysrootReadOnly := img.SysrootReadOnly }

/-- The Raw-Image stage of `img` under Build stage `b` and Deployment stage
`t`, with the given output filename and export mark. -/
def rawImageStage (c : Constants) (img : OSTreeImage) (h : Nat) (b t : PipelineRef)
    (filename : String) (exported : Bool) : Pipeline :=
  .rawOSTreeImage
    { base := { manifest := h, name := c.rawImageName, build := some b,
                checkpoint := false, exported := exported }
      platform := img.Platform
      treePipeline := t
      Filename := filename }

/-- The exported QCOW2 stage of `img` under Build stage `b`, built from a
Raw-Image stage that still has its default filename. -/
def qcow2Stage (c : Constants) (img : OSTreeImage) (h : Nat) (b : PipelineRef)
    (filename : String) : Pipeline :=
  .qcow2
    { base := { manifest := h, name := c.qcow2Name, build := some b,
                checkpoint := false, exported := true }
      imgManifest := h
      imgName := c.rawImageName
      imgFilename := c.rawImageFilename
      Filename := filename
      Compat := img.Platform.GetQCOW2Compat }

/-- The XZ stage of `img` under Build stage `b` on top of stage `src`, with
the given export mark. -/
def xzStage (c : Constants) (img : OSTreeImage) (h : Nat) (b src : PipelineRef)
    (exported : Bool) : Pipeline :=
  .xz
    { base := { manifest := h, name := c.xzName, build := some b,
                checkpoint := false, exported := exported }
      imgPipeline := src
      Filename := img.Filename }

/-- The result of `InstantiateManifest` tabulated by format and compression. -/
def instantiateTable (c : Constants) (img : OSTreeImage) (m : Manifest)
    (repos : List rpmmd.RepoConfig) (runner : runner.Runner) : Manifest × Outcome :=
  let n := m.pipelines.length
  let h := m.handle
  let pre := m.pipelines ++ [buildStage c h runner repos, deploymentStage c img h n]
  match img.Platform.GetImageFormat with
  | .FORMAT_RAW =>
    if img.Compression = "xz" then
      (⟨h, pre ++ [rawImageStage c img h n (n + 1) c.rawImageFilename true,
                   xzStage c img h n (n + 2) true]⟩,
       .returned (some ⟨n + 3, img.Filename⟩) none)
    else if img.Compression = "" then
      (⟨h, pre ++ [rawImageStage c img h n (n + 1) img.Filename true]⟩,
       .returned (some ⟨n + 2, img.Filename⟩) none)
    else
      (⟨h, pre ++ [rawImageStage c img h n (n + 1) c.rawImageFilename true]⟩,
       .panicked (.unsupportedCompression img.Compression))
  | .FORMAT_QCOW2 =>
    if img.Compression = "xz" then
      (⟨h, pre ++ [rawImageStage c img h n (n + 1) c.rawImageFilename false,
                   qcow2Stage c img h n c.qcow2Filename,
                   xzStage c img h n (n + 3) true]⟩,
       .returned (some ⟨n + 4, img.Filename⟩) none)
    else if img.Compression = "" then
      (⟨h, pre ++ [rawImageStage c img h n (n + 1) c.rawImageFilename false,
                   qcow2Stage c img h n img.Filename]⟩,
       .returned (some ⟨n + 3, img.Filename⟩) none)
    else
      (⟨h, pre ++ [rawImageStage c img h n (n + 1) c.rawImageFilename false,
                   qcow2Stage c img h n c.qcow2Filename]⟩,
       .panicked (.unsupportedCompression img.Compression))
  | _ =>
    (⟨h, pre ++ [rawImageStage c img h n (n + 1) c.rawImageFilename false]⟩,
     .panicked .invalidImageFormat)

/-- The stages a call added to the manifest `m` it started from. -/
def newStages (m : Manifest) (after : Manifest) : List Pipeline :=
  after.pipelines.drop m.pipelines.length

end image

namespace manifest

/-- Stage `q` takes its input from the stage `p` that pointer `r` designates:
a Deployment stage runs in the Build stage `r`, a Raw-Image stage has `r` as
its tree pipeline, a QCOW2 stage was built from the manifest handle, name and
filename of `p`, and an XZ stage has `r` as its image pipeline. -/
def Pipeline.follows (q : Pipeline) (r : PipelineRef) (p : Pipeline) : Prop :=
  match q with
  | .build _ => False
  | .ostreeDeployment d => d.base.build = some r ∧ p.kind = .build
  | .rawOSTreeImage i => i.treePipeline = r ∧ p.kind = .ostreeDeployment
  | .qcow2 x => x.imgManifest = p.base.manifest ∧ x.imgName = p.base.name ∧
      some x.imgFilename = p.filename? ∧ p.kind = .rawOSTreeImage
  | .xz x => x.imgPipeline = r

/-- A stage with the handle of its manifest blanked out, for comparing graphs
built in different manifests. -/
def Pipeline.eraseHandle : Pipeline → Pipeline
  | .qcow2 p => .qcow2 { p with base := { p.base with manifest := 0 }, imgManifest := 0 }
  | p => p.mapBase fun b => { b with manifest := 0 }

/-- A stage with its export mark cleared, for comparing the wiring of graphs. -/
def Pipeline.clearExported (p : Pipeline) : Pipeline :=
  p.mapBase fun b => { b with exported := false }

/-- A list of stages, the first one at pointer `first`, in which every stage
takes its input from the one right before it. -/
def straightLine (first : PipelineRef) : List Pipeline → Prop
  | p :: q :: rest => q.follows first p ∧ straightLine (first + 1) (q :: rest)
  | _ => True

end manifest

namespace image

open manifest

/-- Step 1 of `InstantiateManifest` on its own (`NewBuild` followed by
`Checkpoint()`), as a caller of the shortcut performs it to obtain the Build
stage it hands over. -/
def buildStep (c : Constants) (m : Manifest) (repos : List rpmmd.RepoConfig)
    (runner : runner.Runner) : Manifest × PipelineRef :=
  let (m, buildPipeline) := NewBuild c m runner repos
  let m := Checkpoint m buildPipeline
  (m, buildPipeline)

/-- A manifest holding one Build stage that has not been checkpointed, with
the pointer to that stage. -/
def plainBuild : Manifest × PipelineRef :=
  NewBuild sampleConstants (freshManifest 7) sampleRunner sampleRepos

end image

namespace manifest

/-- What a stage names as the source of its input: a pointer to a stage or,
for a QCOW2 stage, the manifest handle, name and filename of a stage. -/
inductive Input where
  | stage (r : PipelineRef)
  | named (manifest : Nat) (name : String) (filename : String)
  deriving DecidableEq, Repr

/-- The inputs a stage holds: none for a Build stage, the Build stage it runs
in for a Deployment stage, the tree pipeline for a Raw-Image stage, the named
image for a QCOW2 stage and the image pipeline for an XZ stage. -/
def Pipeline.inputs : Pipeline → List Input
  | .build _ => []
  | .ostreeDeployment p =>
    match p.base.build with
    | some b => [.stage b]
    | none => []
  | .rawOSTreeImage p => [.stage p.treePipeline]
  | .qcow2 p => [.named p.imgManifest p.imgName p.imgFilename]
  | .xz p => [.stage p.imgPipeline]

/-- The input `i` designates the stage `p` that pointer `r` points to. -/
def Input.designates (i : Input) (r : PipelineRef) (p : Pipeline) : Prop :=
  match i with
  | .stage r₀ => r₀ = r
  | .named h name filename =>
    p.base.manifest = h ∧ p.base.name = name ∧ p.filename? = some filename

/-- A list of stages, the first one at pointer `first`, in which every stage
but the first holds exactly one input and that input designates the stage
right before it. -/
def singleInputChain (first : PipelineRef) : List Pipeline → Prop
  | p :: q :: rest =>
    (∃ i, q.inputs = [i] ∧ i.designates first p) ∧ singleInputChain (first + 1) (q :: rest)
  | _ => True

end manifest

namespace image

open manifest

/-- Steps 1 to 3 of `InstantiateManifest` on their own, everything before the
`switch` on the image format: the manifest they leave and the pointers
`buildPipeline` and `imagePipeline`. -/
def stageSteps (c : Constants) (img : OSTreeImage) (m : Manifest)
    (repos : List rpmmd.RepoConfig) (runner : runner.Runner) :
    Manifest × PipelineRef × PipelineRef :=
  let (m, buildPipeline) := NewBuild c m runner repos
  let m := Checkpoint m buildPipeline
  let (m, osPipeline) := NewOSTreeDeployment c m buildPipeline img.Commit img.OSName
    img.Ignition img.IgnitionPlatform img.Platform
  let m := m.setOSTreeDeployment osPipeline fun p => { p with PartitionTable := img.PartitionTable }
  let m := m.setOSTreeDeployment osPipeline fun p => { p with Remote := img.Remote }
  let m := m.setOSTreeDeployment osPipeline fun p =>
    { p with KernelOptionsAppend := img.KernelOptionsAppend }
  let m := m.setOSTreeDeployment osPipeline fun p => { p with Keyboard := img.Keyboard }
  let m := m.setOSTreeDeployment osPipeline fun p => { p with Locale := img.Locale }
  let m := m.setOSTreeDeployment osPipeline fun p => { p with Users := img.Users }
  let m := m.setOSTreeDeployment osPipeline fun p => { p with Groups := img.Groups }
  let m := m.setOSTreeDeployment osPipeline fun p => { p with SysrootReadOnly := img.SysrootReadOnly }
  let (m, imagePipeline) := NewRawOStreeImage c m buildPipeline img.Platform osPipeline
  (m, buildPipeline, imagePipeline)

/-- The stages of a list that carry the export mark, with their pointers, the
first stage of the list being at pointer `first`. -/
def exportedStages (first : PipelineRef) : List Pipeline → List (PipelineRef × Kind)
  | [] => []
  | p :: rest =>
    if p.base.exported then (first, p.kind) :: exportedStages (first + 1) rest
    else exportedStages (first + 1) rest

end image

/-! ## The two entry points on a store that holds the specification -/

namespace image

open manifest

/-- The objects a call works on: the image specification the pointer `img`
points to and the manifest the pointer `m` points to. -/
structure Store where
  img : OSTreeImage
  m : Manifest
  deriving DecidableEq, Repr

/-- The shortcut `ostreeCompressedImagePipelines`, statement by statement on a
store: every read of a field of `img` reads the store as it is at that point
and every assignment rewrites the object it names. -/
def Store.ostreeCompressedImagePipelines (c : Constants) (s : Store)
    (buildPipeline : PipelineRef) : Store × PipelineRef :=
  let (m, osPipeline) := NewOSTreeDeployment c s.m buildPipeline s.img.Commit s.img.OSName
    s.img.Ignition s.img.IgnitionPlatform s.img.Platform
  let s := { s with m := m }
  let s := { s with m := s.m.setOSTreeDeployment osPipeline fun p =>
    { p with PartitionTable := s.img.PartitionTable } }
  let s := { s with m := s.m.setOSTreeDeployment osPipeline fun p =>
    { p with Remote := s.img.Remote } }
  let s := { s with m := s.m.setOSTreeDeployment osPipeline fun p =>
    { p with KernelOptionsAppend := s.img.KernelOptionsAppend } }
  let s := { s with m := s.m.setOSTreeDeployment osPipeline fun p =>
    { p with Keyboard := s.img.Keyboard } }
  let s := { s with m := s.m.setOSTreeDeployment osPipeline fun p =>
    { p with Locale := s.img.Locale } }
  let s := { s with m := s.m.setOSTreeDeployment osPipeline fun p =>
    { p with Users := s.img.Users } }
  let s := { s with m := s.m.setOSTreeDeployment osPipeline fun p =>
    { p with Groups := s.img.Groups } }
  let s := { s with m := s.m.setOSTreeDeployment osPipeline fun p =>
    { p with SysrootReadOnly := s.img.SysrootReadOnly } }
  let (m, imagePipeline) := NewRawOStreeImage c s.m buildPipeline s.img.Platform osPipeline
  let s := { s with m := m }
  let (m, xzPipeline) := NewXZ c s.m buildPipeline imagePipeline
  let s := { s with m := m }
  let s := { s with m := s.m.setXZ xzPipeline fun p => { p with Filename := s.img.Filename } }
  (s, xzPipeline)

/-- The `switch` on the image format of `InstantiateManifest`, on a store. -/
def Store.formatSwitch (c : Constants) (s : Store) (buildPipeline imagePipeline : PipelineRef) :
    Store × Except Fault (PipelineRef × Option artifact.Artifact) :=
  match s.img.Platform.GetImageFormat with
  | .FORMAT_RAW =>
    let s := if s.img.Compression = "" then
        { s with m := s.m.setRawOSTreeImage imagePipeline fun p =>
          { p with Filename := s.img.Filename } }
      else s
    let artifactPipeline := imagePipeline
    match Export s.m imagePipeline with
    | some (m, artifact) => ({ s with m := m }, .ok (artifactPipeline, some artifact))
    | none => (s, .error .nilDereference)
  | .FORMAT_QCOW2 =>
    match s.m.getRawOSTreeImage? imagePipeline with
    | none => (s, .error .nilDereference)
    | some image =>
      let (m, qcow2Pipeline) := NewQCOW2 c s.m buildPipeline image.base.manifest
        image.base.name image.Filename
      let s := { s with m := m }
      let s := if s.img.Compression = "" then
          { s with m := s.m.setQCOW2 qcow2Pipeline fun p =>
            { p with Filename := s.img.Filename } }
        else s
      let s := { s with m := s.m.setQCOW2 qcow2Pipeline fun p =>
        { p with Compat := s.img.Platform.GetQCOW2Compat } }
      let artifactPipeline := qcow2Pipeline
      match Export s.m qcow2Pipeline with
      | some (m, artifact) => ({ s with m := m }, .ok (artifactPipeline, some artifact))
      | none => (s, .error .nilDereference)
  | _ => (s, .error .invalidImageFormat)

/-- The `switch` on the compression string of `InstantiateManifest` and the
final `return`, on a store. -/
def Store.compressionSwitch (c : Constants) (s : Store)
    (buildPipeline artifactPipeline : PipelineRef) (artifact : Option artifact.Artifact) :
    Store × Outcome :=
  if s.img.Compression = "xz" then
    let (m, xzPipeline) := NewXZ c s.m buildPipeline artifactPipeline
    let s := { s with m := m }
    let s := { s with m := s.m.setXZ xzPipeline fun p => { p with Filename := s.img.Filename } }
    match Export s.m xzPipeline with
    | some (m, artifact) => ({ s with m := m }, .returned (some artifact) none)
    | none => (s, .panicked .nilDereference)
  else if s.img.Compression = "" then
    (s, .returned artifact none)
  else
    (s, .panicked (.unsupportedCompression s.img.Compression))

/-- The method `InstantiateManifest`, statement by statement on a store. -/
def Store.InstantiateManifest (c : Constants) (s : Store) (repos : List rpmmd.RepoConfig)
    (runner : runner.Runner) (rng : rand.Rand) : Store × Outcome :=
  let (m, buildPipeline) := NewBuild c s.m runner repos
  let s := { s with m := m }
  let s := { s with m := Checkpoint s.m buildPipeline }
  let (m, osPipeline) := NewOSTreeDeployment c s.m buildPipeline s.img.Commit s.img.OSName
    s.img.Ignition s.img.IgnitionPlatform s.img.Platform
  let s := { s with m := m }
  let s := { s with m := s.m.setOSTreeDeployment osPipeline fun p =>
    { p with PartitionTable := s.img.PartitionTable } }
  let s := { s with m := s.m.setOSTreeDeployment osPipeline fun p =>
    { p with Remote := s.img.Remote } }
  let s := { s with m := s.m.setOSTreeDeployment osPipeline fun p =>
    { p with KernelOptionsAppend := s.img.KernelOptionsAppend } }
  let s := { s with m := s.m.setOSTreeDeployment osPipeline fun p =>
    { p with Keyboard := s.img.Keyboard } }
  let s := { s with m := s.m.setOSTreeDeployment osPipeline fun p =>
    { p with Locale := s.img.Locale } }
  let s := { s with m := s.m.setOSTreeDeployment osPipeline fun p =>
    { p with Users := s.img.Users } }
  let s := { s with m := s.m.setOSTreeDeployment osPipeline fun p =>
    { p with Groups := s.img.Groups } }
  let s := { s with m := s.m.setOSTreeDeployment osPipeline fun p =>
    { p with SysrootReadOnly := s.img.SysrootReadOnly } }
  let (m, imagePipeline) := NewRawOStreeImage c s.m buildPipeline s.img.Platform osPipeline
  let s := { s with m := m }
  match Store.formatSwitch c s buildPipeline imagePipeline with
  | (s, .error fault) => (s, .panicked fault)
  | (s, .ok (artifactPipeline, artifact)) =>
    Store.compressionSwitch c s buildPipeline artifactPipeline artifact

end image

/-! ## Lemmas on the manifest state -/

namespace manifest

theorem length_updateAt {α : Type} (f : α → α) (n : Nat) (l : List α) :
    (updateAt f n l).length = l.length := by
  induction l generalizing n with
  | nil => cases n <;> rfl
  | cons x xs ih => cases n <;> simp [updateAt, ih]

theorem updateAt_append_add {α : Type} (f : α → α) (l r : List α) (k : Nat) :
    updateAt f (l.length + k) (l ++ r) = l ++ updateAt f k r := by
  induction l with
  | nil => simp
  | cons x xs ih =>
    have h : (x :: xs).length + k = (xs.length + k) + 1 := by simp; omega
    rw [h]
    simp [updateAt, ih]

theorem updateAt_append_length {α : Type} (f : α → α) (l r : List α) :
    updateAt f l.length (l ++ r) = l ++ updateAt f 0 r := by
  simpa using updateAt_append_add f l r 0

theorem getElem?_append_add {α : Type} (l r : List α) (k : Nat) :
    (l ++ r)[l.length + k]? = r[k]? := by
  rw [List.getElem?_append_right (by omega)]
  congr 1
  omega

theorem getElem?_append_length {α : Type} (l r : List α) :
    (l ++ r)[l.length]? = r[0]? := by
  simpa using getElem?_append_add l r 0

theorem Manifest.update_append_add (h : Nat) (l r : List Pipeline) (k : Nat)
    (f : Pipeline → Pipeline) :
    Manifest.update ⟨h, l ++ r⟩ (l.length + k) f = ⟨h, l ++ updateAt f k r⟩ := by
  simp [Manifest.update, updateAt_append_add]

theorem Manifest.update_append_length (h : Nat) (l r : List Pipeline)
    (f : Pipeline → Pipeline) :
    Manifest.update ⟨h, l ++ r⟩ l.length f = ⟨h, l ++ updateAt f 0 r⟩ := by
  simp [Manifest.update, updateAt_append_length]

theorem Manifest.get?_append_add (h : Nat) (l r : List Pipeline) (k : Nat) :
    Manifest.get? ⟨h, l ++ r⟩ (l.length + k) = r[k]? := by
  simp only [Manifest.get?, getElem?_append_add]

theorem Manifest.get?_append_length (h : Nat) (l r : List Pipeline) :
    Manifest.get? ⟨h, l ++ r⟩ l.length = r[0]? := by
  simp only [Manifest.get?, getElem?_append_length]

end manifest

namespace image

open manifest

/-- The compiler computes the tabulated result, on every input. -/
theorem InstantiateManifest_eq_table (c : Constants) (img : OSTreeImage) (m : Manifest)
    (repos : List rpmmd.RepoConfig) (runner : runner.Runner) (rng : rand.Rand) :
    img.InstantiateManifest c m repos runner rng = instantiateTable c img m repos runner := by
  obtain ⟨h, l⟩ := m
  cases hf : img.Platform.GetImageFormat <;>
  by_cases hx : img.Compression = "xz" <;>
  by_cases he : img.Compression = "" <;>
  simp [OSTreeImage.InstantiateManifest, instantiateTable, formatSwitch, compressionSwitch,
    hf, hx, he, NewBuild, Checkpoint, NewOSTreeDeployment, NewRawOStreeImage, NewQCOW2, NewXZ,
    Export, Manifest.addPipeline, Manifest.setOSTreeDeployment, Manifest.setRawOSTreeImage,
    Manifest.setQCOW2, Manifest.setXZ, Manifest.getRawOSTreeImage?, Manifest.update_append_add,
    Manifest.update_append_length, Manifest.get?_append_add, Manifest.get?_append_length,
    updateAt, Pipeline.mapBase, Pipeline.filename?, buildStage, deploymentStage, rawImageStage,
    qcow2Stage, xzStage]

/-- The shortcut appends a Deployment, a Raw-Image and an XZ stage and returns
the pointer to the last one, on every input. -/
theorem ostreeCompressedImagePipelines_eq (c : Constants) (img : OSTreeImage) (m : Manifest)
    (b : PipelineRef) :
    ostreeCompressedImagePipelines c img m b =
      (⟨m.handle, m.pipelines ++
          [deploymentStage c img m.handle b,
           rawImageStage c img m.handle b m.pipelines.length c.rawImageFilename false,
           xzStage c img m.handle b (m.pipelines.length + 1) false]⟩,
       m.pipelines.length + 2) := by
  obtain ⟨h, l⟩ := m
  simp [ostreeCompressedImagePipelines, NewOSTreeDeployment, NewRawOStreeImage, NewXZ,
    Manifest.addPipeline, Manifest.setOSTreeDeployment, Manifest.setXZ,
    Manifest.update_append_add, Manifest.update_append_length, updateAt, deploymentStage,
    rawImageStage, xzStage]

end image

/-! ## The stage chain of the general compiler -/

namespace image

open manifest

/-- C1: for a RAW or QCOW2 platform and compression "" or "xz",
`InstantiateManifest` leaves the stages already in the manifest as they were
and appends exactly the chain Build, Deployment, RawImage, then a QCOW2 stage
iff the format is QCOW2, then an XZ stage iff the compression is "xz"; each
stage takes its input from the one before it, and the chain has 3, 4, 4 or 5
stages accordingly. -/
theorem InstantiateManifest_stage_chain (c : Constants) (img : OSTreeImage) (m : Manifest)
    (repos : List rpmmd.RepoConfig) (runner : runner.Runner) (rng : rand.Rand)
    (hf : img.Platform.GetImageFormat = .FORMAT_RAW ∨
      img.Platform.GetImageFormat = .FORMAT_QCOW2)
    (hc : img.Compression = "" ∨ img.Compression = "xz") :
    (img.InstantiateManifest c m repos runner rng).1.pipelines.take m.pipelines.length
        = m.pipelines ∧
    (newStages m (img.InstantiateManifest c m repos runner rng).1).map Pipeline.kind
        = [Kind.build, Kind.ostreeDeployment, Kind.rawOSTreeImage]
          ++ (if img.Platform.GetImageFormat = .FORMAT_QCOW2 then [Kind.qcow2] else [])
          ++ (if img.Compression = "xz" then [Kind.xz] else []) ∧
    (newStages m (img.InstantiateManifest c m repos runner rng).1).length
        = 3 + (if img.Platform.GetImageFormat = .FORMAT_QCOW2 then 1 else 0)
            + (if img.Compression = "xz" then 1 else 0) ∧
    straightLine m.pipelines.length
      (newStages m (img.InstantiateManifest c m repos runner rng).1) := by
  rw [InstantiateManifest_eq_table]
  obtain ⟨h, l⟩ := m
  rcases hf with hf | hf <;> rcases hc with hc | hc <;>
  simp [instantiateTable, hf, hc, newStages, buildStage, deploymentStage, rawImageStage,
    qcow2Stage, xzStage, Pipeline.kind, straightLine, Pipeline.follows, Pipeline.base,
    Pipeline.filename?]

/-- C1, at a QCOW2 platform with "xz" compression on a fresh manifest: the
chain is Build, Deployment, RawImage, QCOW2, XZ. -/
theorem InstantiateManifest_stage_chain_witness :
    (sampleImage .FORMAT_QCOW2 "xz").Platform.GetImageFormat = .FORMAT_QCOW2 ∧
    (sampleImage .FORMAT_QCOW2 "xz").Compression = "xz" ∧
    (newStages (freshManifest 7)
      ((sampleImage .FORMAT_QCOW2 "xz").InstantiateManifest sampleConstants (freshManifest 7)
        sampleRepos sampleRunner ⟨1⟩).1).map Pipeline.kind
      = [Kind.build, Kind.ostreeDeployment, Kind.rawOSTreeImage, Kind.qcow2, Kind.xz] ∧
    (newStages (freshManifest 7)
      ((sampleImage .FORMAT_QCOW2 "xz").InstantiateManifest sampleConstants (freshManifest 7)
        sampleRepos sampleRunner ⟨1⟩).1).length = 5 :=
  ⟨rfl, rfl,
   (InstantiateManifest_stage_chain sampleConstants (sampleImage .FORMAT_QCOW2 "xz")
      (freshManifest 7) sampleRepos sampleRunner ⟨1⟩ (Or.inr rfl) (Or.inr rfl)).2.1,
   (InstantiateManifest_stage_chain sampleConstants (sampleImage .FORMAT_QCOW2 "xz")
      (freshManifest 7) sampleRepos sampleRunner ⟨1⟩ (Or.inr rfl) (Or.inr rfl)).2.2.1⟩

/-- C2: for a RAW or QCOW2 platform and compression "" or "xz", after
`InstantiateManifest` the last stage of the chain has output filename
`img.Filename` and every earlier stage of the chain that has a filename field
still has the default its constructor gave it; in particular the Raw-Image
stage has `img.Filename` only for RAW with no compression, and the QCOW2
stage's own filename argument was the Raw-Image default. -/
theorem InstantiateManifest_filenames (c : Constants) (img : OSTreeImage) (m : Manifest)
    (repos : List rpmmd.RepoConfig) (runner : runner.Runner) (rng : rand.Rand)
    (hf : img.Platform.GetImageFormat = .FORMAT_RAW ∨
      img.Platform.GetImageFormat = .FORMAT_QCOW2)
    (hc : img.Compression = "" ∨ img.Compression = "xz") :
    (newStages m (img.InstantiateManifest c m repos runner rng).1).getLast?.bind
        Pipeline.filename? = some img.Filename ∧
    (∀ p ∈ (newStages m (img.InstantiateManifest c m repos runner rng).1).dropLast,
        p.filename? = c.defaultFilename? p) ∧
    ((img.InstantiateManifest c m repos runner rng).1.get? (m.pipelines.length + 2)).bind
        Pipeline.filename? =
      some (if img.Platform.GetImageFormat = .FORMAT_RAW ∧ img.Compression = ""
        then img.Filename else c.rawImageFilename) := by
  rw [InstantiateManifest_eq_table]
  obtain ⟨h, l⟩ := m
  rcases hf with hf | hf <;> rcases hc with hc | hc <;>
  simp [instantiateTable, hf, hc, newStages, buildStage, deploymentStage, rawImageStage,
    qcow2Stage, xzStage, Pipeline.filename?, Constants.defaultFilename?,
    Manifest.get?_append_add]

/-- C2, at a QCOW2 platform without compression on a fresh manifest: the QCOW2
stage is last and named `image.out`, the Raw-Image stage keeps `disk.img`. -/
theorem InstantiateManifest_filenames_witness :
    (sampleImage .FORMAT_QCOW2 "").Platform.GetImageFormat = .FORMAT_QCOW2 ∧
    (sampleImage .FORMAT_QCOW2 "").Compression = "" ∧
    (newStages (freshManifest 7)
      ((sampleImage .FORMAT_QCOW2 "").InstantiateManifest sampleConstants (freshManifest 7)
        sampleRepos sampleRunner ⟨1⟩).1).map Pipeline.filename?
      = [none, none, some "disk.img", some "image.out"] ∧
    (newStages (freshManifest 7)
      ((sampleImage .FORMAT_QCOW2 "").InstantiateManifest sampleConstants (freshManifest 7)
        sampleRepos sampleRunner ⟨1⟩).1).getLast?.bind Pipeline.filename? = some "image.out" :=
  ⟨rfl, rfl, rfl,
   (InstantiateManifest_filenames sampleConstants (sampleImage .FORMAT_QCOW2 "")
      (freshManifest 7) sampleRepos sampleRunner ⟨1⟩ (Or.inr rfl) (Or.inl rfl)).1⟩

/-- C3: `InstantiateManifest` panics exactly when the format is neither RAW
nor QCOW2 or the compression is neither "" nor "xz"; in every other case, and
only then, it returns an artifact with a nil error; it never returns a non-nil
error nor a nil artifact. -/
theorem InstantiateManifest_halts_iff (c : Constants) (img : OSTreeImage) (m : Manifest)
    (repos : List rpmmd.RepoConfig) (runner : runner.Runner) (rng : rand.Rand) :
    ((∃ fault, (img.InstantiateManifest c m repos runner rng).2 = .panicked fault) ↔
      (img.Platform.GetImageFormat ≠ .FORMAT_RAW ∧
        img.Platform.GetImageFormat ≠ .FORMAT_QCOW2) ∨
      (img.Compression ≠ "" ∧ img.Compression ≠ "xz")) ∧
    ((∃ a, (img.InstantiateManifest c m repos runner rng).2 = .returned (some a) none) ↔
      (img.Platform.GetImageFormat = .FORMAT_RAW ∨
        img.Platform.GetImageFormat = .FORMAT_QCOW2) ∧
      (img.Compression = "" ∨ img.Compression = "xz")) ∧
    (∀ a e, (img.InstantiateManifest c m repos runner rng).2 = .returned a e →
      a.isSome = true ∧ e = none) := by
  rw [InstantiateManifest_eq_table]
  obtain ⟨h, l⟩ := m
  cases hf : img.Platform.GetImageFormat <;>
  by_cases hx : img.Compression = "xz" <;>
  by_cases he : img.Compression = "" <;>
  simp_all [instantiateTable]

/-- C4: on every input the Deployment stage `InstantiateManifest` constructs,
the only one it adds, is a child of the new Build stage, was constructed with
the specification's Commit, OSName, Ignition, IgnitionPlatform and Platform,
and carries the specification's PartitionTable, Remote, KernelOptionsAppend,
Keyboard, Locale, Users, Groups and SysrootReadOnly unchanged. -/
theorem InstantiateManifest_deployment_fields (c : Constants) (img : OSTreeImage)
    (m : Manifest) (repos : List rpmmd.RepoConfig) (runner : runner.Runner)
    (rng : rand.Rand) :
    ∃ d : OSTreeDeployment,
      (img.InstantiateManifest c m repos runner rng).1.get? (m.pipelines.length + 1)
        = some (.ostreeDeployment d) ∧
      (∀ p ∈ newStages m (img.InstantiateManifest c m repos runner rng).1,
        p.kind = Kind.ostreeDeployment → p = .ostreeDeployment d) ∧
      d.base.build = some m.pipelines.length ∧
      d.commit = img.Commit ∧ d.osName = img.OSName ∧ d.ignition = img.Ignition ∧
      d.ignitionPlatform = img.IgnitionPlatform ∧ d.platform = img.Platform ∧
      d.PartitionTable = img.PartitionTable ∧ d.Remote = img.Remote ∧
      d.KernelOptionsAppend = img.KernelOptionsAppend ∧ d.Keyboard = img.Keyboard ∧
      d.Locale = img.Locale ∧ d.Users = img.Users ∧ d.Groups = img.Groups ∧
      d.SysrootReadOnly = img.SysrootReadOnly := by
  rw [InstantiateManifest_eq_table]
  obtain ⟨h, l⟩ := m
  cases hf : img.Platform.GetImageFormat <;>
  by_cases hx : img.Compression = "xz" <;>
  by_cases he : img.Compression = "" <;>
  simp_all [instantiateTable, newStages, buildStage, deploymentStage, rawImageStage,
    qcow2Stage, xzStage, Pipeline.kind, Manifest.get?_append_add]

/-- C5: on every input, also those on which the call panics later, the Build
stage `InstantiateManifest` constructs, the only one it adds, is built from
the given runner and repositories and is checkpoint-marked. -/
theorem InstantiateManifest_build_checkpointed (c : Constants) (img : OSTreeImage)
    (m : Manifest) (repos : List rpmmd.RepoConfig) (runner : runner.Runner)
    (rng : rand.Rand) :
    ∃ b : Build,
      (img.InstantiateManifest c m repos runner rng).1.get? m.pipelines.length
        = some (.build b) ∧
      (∀ p ∈ newStages m (img.InstantiateManifest c m repos runner rng).1,
        p.kind = Kind.build → p = .build b) ∧
      b.base.checkpoint = true ∧ b.runner = runner ∧ b.repos = repos := by
  rw [InstantiateManifest_eq_table]
  obtain ⟨h, l⟩ := m
  cases hf : img.Platform.GetImageFormat <;>
  by_cases hx : img.Compression = "xz" <;>
  by_cases he : img.Compression = "" <;>
  simp_all [instantiateTable, newStages, buildStage, deploymentStage, rawImageStage,
    qcow2Stage, xzStage, Pipeline.kind, Manifest.get?_append_add,
    Manifest.get?_append_length]

/-! ## The compressed-raw shortcut -/

/-- C6, refuted as stated, at a RAW platform with "xz" compression on a fresh
manifest.  Handed the Build stage of step 1 of the general path, the shortcut
leaves a graph that differs from the general one in more than how the export
is returned: also after the XZ stage it returns has been exported, the
Raw-Image stage carries the export mark in the general graph and not in the
shortcut's, so the two graphs are not equal.  Handed a Build stage that has
not been checkpointed, with the same specification, the Build stage of the
two graphs differs as well, export marks set aside. -/
theorem shortcut_differs_from_general :
    ((Export
        (ostreeCompressedImagePipelines sampleConstants (sampleImage .FORMAT_RAW "xz")
          (buildStep sampleConstants (freshManifest 7) sampleRepos sampleRunner).1
          (buildStep sampleConstants (freshManifest 7) sampleRepos sampleRunner).2).1
        (ostreeCompressedImagePipelines sampleConstants (sampleImage .FORMAT_RAW "xz")
          (buildStep sampleConstants (freshManifest 7) sampleRepos sampleRunner).1
          (buildStep sampleConstants (freshManifest 7) sampleRepos sampleRunner).2).2).map
        fun r => r.1)
      ≠ some ((sampleImage .FORMAT_RAW "xz").InstantiateManifest sampleConstants
          (freshManifest 7) sampleRepos sampleRunner ⟨1⟩).1 ∧
    ((Export
        (ostreeCompressedImagePipelines sampleConstants (sampleImage .FORMAT_RAW "xz")
          (buildStep sampleConstants (freshManifest 7) sampleRepos sampleRunner).1
          (buildStep sampleConstants (freshManifest 7) sampleRepos sampleRunner).2).1
        (ostreeCompressedImagePipelines sampleConstants (sampleImage .FORMAT_RAW "xz")
          (buildStep sampleConstants (freshManifest 7) sampleRepos sampleRunner).1
          (buildStep sampleConstants (freshManifest 7) sampleRepos sampleRunner).2).2).bind
        fun r => (r.1.get? 2).map fun p => p.base.exported) = some false ∧
    (((sampleImage .FORMAT_RAW "xz").InstantiateManifest sampleConstants (freshManifest 7)
        sampleRepos sampleRunner ⟨1⟩).1.get? 2).map (fun p => p.base.exported) = some true ∧
    ((ostreeCompressedImagePipelines sampleConstants (sampleImage .FORMAT_RAW "xz")
        plainBuild.1 plainBuild.2).1.get? 0).map (fun p => p.base.checkpoint) = some false ∧
    (((sampleImage .FORMAT_RAW "xz").InstantiateManifest sampleConstants (freshManifest 7)
        sampleRepos sampleRunner ⟨1⟩).1.get? 0).map (fun p => p.base.checkpoint) = some true ∧
    (ostreeCompressedImagePipelines sampleConstants (sampleImage .FORMAT_RAW "xz")
        plainBuild.1 plainBuild.2).1.pipelines.map Pipeline.clearExported
      ≠ ((sampleImage .FORMAT_RAW "xz").InstantiateManifest sampleConstants (freshManifest 7)
          sampleRepos sampleRunner ⟨1⟩).1.pipelines.map Pipeline.clearExported := by
  rw [InstantiateManifest_eq_table, ostreeCompressedImagePipelines_eq,
    ostreeCompressedImagePipelines_eq]
  simp [instantiateTable, sampleImage, platform.Platform.GetImageFormat, plainBuild, buildStep,
    NewBuild, Checkpoint, Manifest.addPipeline, Manifest.update, Manifest.get?, freshManifest,
    Export, updateAt, Pipeline.mapBase, Pipeline.clearExported, Pipeline.filename?,
    Pipeline.base, buildStage, deploymentStage, rawImageStage, xzStage]

/-- C6, amended: for a RAW platform with "xz" compression, run the shortcut
on the Build stage that step 1 of the general path yields (the shortcut builds
none itself).  The two graphs are then the same stage by stage once export
marks are set aside; the shortcut returns the pointer to an XZ stage that sits
on the Raw-Image stage, has filename `img.Filename` and is not exported.  The
graphs differ in their export marks: the general path exports the Raw-Image
stage and the XZ stage, the shortcut exports nothing, and exporting the
Raw-Image stage and then that XZ stage in the shortcut's graph gives exactly
the graph and the artifact of the general path. -/
theorem shortcut_agrees_with_general (c : Constants) (img : OSTreeImage) (m : Manifest)
    (repos : List rpmmd.RepoConfig) (runner : runner.Runner) (rng : rand.Rand)
    (hf : img.Platform.GetImageFormat = .FORMAT_RAW) (hc : img.Compression = "xz") :
    (img.InstantiateManifest c m repos runner rng).1.pipelines.map Pipeline.clearExported
      = (ostreeCompressedImagePipelines c img (buildStep c m repos runner).1
          (buildStep c m repos runner).2).1.pipelines.map Pipeline.clearExported ∧
    (img.InstantiateManifest c m repos runner rng).1.pipelines.take (m.pipelines.length + 2)
      = (ostreeCompressedImagePipelines c img (buildStep c m repos runner).1
          (buildStep c m repos runner).2).1.pipelines.take (m.pipelines.length + 2) ∧
    (ostreeCompressedImagePipelines c img (buildStep c m repos runner).1
        (buildStep c m repos runner).2).1.get?
      (ostreeCompressedImagePipelines c img (buildStep c m repos runner).1
        (buildStep c m repos runner).2).2
      = some (xzStage c img m.handle m.pipelines.length (m.pipelines.length + 2) false) ∧
    ((ostreeCompressedImagePipelines c img (buildStep c m repos runner).1
        (buildStep c m repos runner).2).1.get? (m.pipelines.length + 2)).map Pipeline.kind
      = some Kind.rawOSTreeImage ∧
    ((Export (ostreeCompressedImagePipelines c img (buildStep c m repos runner).1
          (buildStep c m repos runner).2).1 (m.pipelines.length + 2)).bind fun r =>
        Export r.1 (ostreeCompressedImagePipelines c img (buildStep c m repos runner).1
          (buildStep c m repos runner).2).2).map
        (fun r => (r.1, Outcome.returned (some r.2) none))
      = some (img.InstantiateManifest c m repos runner rng) ∧
    exportedStages m.pipelines.length
        (newStages m (img.InstantiateManifest c m repos runner rng).1)
      = [(m.pipelines.length + 2, Kind.rawOSTreeImage), (m.pipelines.length + 3, Kind.xz)] ∧
    exportedStages m.pipelines.length
        (newStages m (ostreeCompressedImagePipelines c img (buildStep c m repos runner).1
          (buildStep c m repos runner).2).1)
      = [] := by
  rw [InstantiateManifest_eq_table, ostreeCompressedImagePipelines_eq]
  obtain ⟨h, l⟩ := m
  simp [instantiateTable, hf, hc, buildStep, NewBuild, Checkpoint, Manifest.addPipeline,
    Manifest.update_append_length, Manifest.update_append_add, Manifest.get?_append_add,
    Export, updateAt, Pipeline.mapBase, Pipeline.clearExported, Pipeline.filename?,
    Pipeline.kind, Pipeline.base, newStages, exportedStages, buildStage, deploymentStage,
    rawImageStage, xzStage, Nat.add_assoc, List.take_append]

/-- C6, amended, at a RAW platform with "xz" compression on a fresh manifest:
both graphs have the same four stages up to export marks. -/
theorem shortcut_agrees_with_general_witness :
    (sampleImage .FORMAT_RAW "xz").Platform.GetImageFormat = .FORMAT_RAW ∧
    (sampleImage .FORMAT_RAW "xz").Compression = "xz" ∧
    ((sampleImage .FORMAT_RAW "xz").InstantiateManifest sampleConstants (freshManifest 7)
        sampleRepos sampleRunner ⟨1⟩).1.pipelines.map Pipeline.clearExported
      = (ostreeCompressedImagePipelines sampleConstants (sampleImage .FORMAT_RAW "xz")
          (buildStep sampleConstants (freshManifest 7) sampleRepos sampleRunner).1
          (buildStep sampleConstants (freshManifest 7) sampleRepos sampleRunner).2).1.pipelines.map
          Pipeline.clearExported :=
  ⟨rfl, rfl,
   (shortcut_agrees_with_general sampleConstants (sampleImage .FORMAT_RAW "xz")
      (freshManifest 7) sampleRepos sampleRunner ⟨1⟩ rfl rfl).1⟩

/-- C7, refuted as stated: handed a manifest whose Build stage is not
checkpointed, the shortcut adds no Build stage and leaves the Build stage it
was handed without a checkpoint mark. -/
theorem shortcut_builds_no_build_stage :
    (¬ ∃ p ∈ newStages plainBuild.1
        (ostreeCompressedImagePipelines sampleConstants (sampleImage .FORMAT_RAW "xz")
          plainBuild.1 plainBuild.2).1, p.kind = Kind.build) ∧
    (¬ ∃ b : Build,
        (ostreeCompressedImagePipelines sampleConstants (sampleImage .FORMAT_RAW "xz")
          plainBuild.1 plainBuild.2).1.get? plainBuild.2 = some (.build b) ∧
        b.base.checkpoint = true) := by
  rw [ostreeCompressedImagePipelines_eq]
  simp [plainBuild, NewBuild, Manifest.addPipeline, freshManifest, newStages, Manifest.get?,
    deploymentStage, rawImageStage, xzStage, Pipeline.kind]

/-- C7, amended: the shortcut takes its Build stage as an argument.  It leaves
the stages already in the manifest, that Build stage included, as they were
and adds no Build stage; it adds a Deployment stage as a child of the Build
stage it was handed and a Raw-Image stage as a child of that Deployment stage.
Run on the Build stage of step 1 of `InstantiateManifest`, its Deployment
stage is the very stage `InstantiateManifest` builds, and its Raw-Image stage
has the same common part up to the export mark, the same platform and the same
tree pipeline as the one `InstantiateManifest` builds. -/
theorem shortcut_steps_two_three (c : Constants) (img : OSTreeImage) (m : Manifest)
    (b : PipelineRef) (repos : List rpmmd.RepoConfig) (runner : runner.Runner)
    (rng : rand.Rand) :
    (ostreeCompressedImagePipelines c img m b).1.pipelines.take m.pipelines.length
      = m.pipelines ∧
    (∀ p ∈ newStages m (ostreeCompressedImagePipelines c img m b).1, p.kind ≠ Kind.build) ∧
    (ostreeCompressedImagePipelines c img m b).1.get? m.pipelines.length
      = some (deploymentStage c img m.handle b) ∧
    (∃ r : RawOSTreeImage,
      (ostreeCompressedImagePipelines c img m b).1.get? (m.pipelines.length + 1)
        = some (.rawOSTreeImage r) ∧
      r.base.build = some b ∧ r.platform = img.Platform ∧
      r.treePipeline = m.pipelines.length) ∧
    (ostreeCompressedImagePipelines c img (buildStep c m repos runner).1
        (buildStep c m repos runner).2).1.get? (m.pipelines.length + 1)
      = (img.InstantiateManifest c m repos runner rng).1.get? (m.pipelines.length + 1) ∧
    (∃ r g : RawOSTreeImage,
      (ostreeCompressedImagePipelines c img (buildStep c m repos runner).1
        (buildStep c m repos runner).2).1.get? (m.pipelines.length + 2)
        = some (.rawOSTreeImage r) ∧
      (img.InstantiateManifest c m repos runner rng).1.get? (m.pipelines.length + 2)
        = some (.rawOSTreeImage g) ∧
      { r.base with exported := false } = { g.base with exported := false } ∧
      r.platform = g.platform ∧ r.treePipeline = g.treePipeline) := by
  rw [InstantiateManifest_eq_table, ostreeCompressedImagePipelines_eq,
    ostreeCompressedImagePipelines_eq]
  obtain ⟨h, l⟩ := m
  cases hf : img.Platform.GetImageFormat <;>
  by_cases hx : img.Compression = "xz" <;>
  by_cases he : img.Compression = "" <;>
  simp_all [instantiateTable, buildStep, NewBuild, Checkpoint, Manifest.addPipeline,
    Manifest.update_append_length, Manifest.get?_append_add, Manifest.get?_append_length,
    updateAt, Pipeline.mapBase, Pipeline.kind, newStages, buildStage, deploymentStage,
    rawImageStage, qcow2Stage, xzStage, Nat.add_assoc]

/-- C8: on every image specification, whatever its format and compression
string, and for every manifest and Build pointer, the shortcut returns the
pointer to an XZ stage whose image pipeline is the Raw-Image stage it has just
built and whose filename is `img.Filename`; no stage it added is marked as
exported, and the Raw-Image stage keeps its default filename. -/
theorem shortcut_returns_unexported_xz (c : Constants) (img : OSTreeImage) (m : Manifest)
    (b : PipelineRef) :
    ∃ (x : XZ) (r : RawOSTreeImage),
      (ostreeCompressedImagePipelines c img m b).1.get?
        (ostreeCompressedImagePipelines c img m b).2 = some (.xz x) ∧
      (ostreeCompressedImagePipelines c img m b).1.get? x.imgPipeline
        = some (.rawOSTreeImage r) ∧
      x.imgPipeline = m.pipelines.length + 1 ∧
      (ostreeCompressedImagePipelines c img m b).2 = m.pipelines.length + 2 ∧
      x.Filename = img.Filename ∧
      x.base.exported = false ∧
      r.Filename = c.rawImageFilename ∧
      r.base.exported = false ∧
      (∀ p ∈ newStages m (ostreeCompressedImagePipelines c img m b).1,
        p.base.exported = false) ∧
      (newStages m (ostreeCompressedImagePipelines c img m b).1).map Pipeline.kind
        = [Kind.ostreeDeployment, Kind.rawOSTreeImage, Kind.xz] := by
  rw [ostreeCompressedImagePipelines_eq]
  obtain ⟨h, l⟩ := m
  simp [Manifest.get?_append_add, newStages, deploymentStage, rawImageStage, xzStage,
    Pipeline.base, Pipeline.kind]

/-! ## The returned artifact and determinism -/

/-- C9: for a RAW or QCOW2 platform and compression "" or "xz",
`InstantiateManifest` returns, with a nil error, the artifact that `Export`
yields on the last stage of the chain: that stage is the XZ stage when the
compression is "xz", else the QCOW2 stage for QCOW2 and the Raw-Image stage
for RAW; it is marked as exported and the artifact carries its filename, which
is `img.Filename`. -/
theorem InstantiateManifest_returns_final_export (c : Constants) (img : OSTreeImage)
    (m : Manifest) (repos : List rpmmd.RepoConfig) (runner : runner.Runner)
    (rng : rand.Rand)
    (hf : img.Platform.GetImageFormat = .FORMAT_RAW ∨
      img.Platform.GetImageFormat = .FORMAT_QCOW2)
    (hc : img.Compression = "" ∨ img.Compression = "xz") :
    ∃ (a : artifact.Artifact) (p : Pipeline),
      (img.InstantiateManifest c m repos runner rng).2 = .returned (some a) none ∧
      a.pipeline + 1 = (img.InstantiateManifest c m repos runner rng).1.pipelines.length ∧
      (img.InstantiateManifest c m repos runner rng).1.get? a.pipeline = some p ∧
      p.kind = (if img.Compression = "xz" then Kind.xz
        else if img.Platform.GetImageFormat = .FORMAT_QCOW2 then Kind.qcow2
        else Kind.rawOSTreeImage) ∧
      p.base.exported = true ∧
      p.filename? = some a.filename ∧
      a.filename = img.Filename ∧
      Export (img.InstantiateManifest c m repos runner rng).1 a.pipeline
        = some ((img.InstantiateManifest c m repos runner rng).1, a) := by
  rw [InstantiateManifest_eq_table]
  obtain ⟨h, l⟩ := m
  rcases hf with hf | hf <;> rcases hc with hc | hc <;>
  simp [instantiateTable, hf, hc, Export, Manifest.get?_append_add,
    Manifest.update_append_add, updateAt, Pipeline.mapBase, Pipeline.filename?,
    Pipeline.kind, Pipeline.base, buildStage, deploymentStage, rawImageStage, qcow2Stage,
    xzStage, Nat.add_assoc]

/-- C9, at a RAW platform with "xz" compression on a fresh manifest: the
artifact is the export of the XZ stage, the fourth stage, named `image.out`. -/
theorem InstantiateManifest_returns_final_export_witness :
    (sampleImage .FORMAT_RAW "xz").Platform.GetImageFormat = .FORMAT_RAW ∧
    (sampleImage .FORMAT_RAW "xz").Compression = "xz" ∧
    ((sampleImage .FORMAT_RAW "xz").InstantiateManifest sampleConstants (freshManifest 7)
        sampleRepos sampleRunner ⟨1⟩).2
      = .returned (some { pipeline := 3, filename := "image.out" }) none ∧
    ∃ (a : artifact.Artifact) (p : Pipeline),
      ((sampleImage .FORMAT_RAW "xz").InstantiateManifest sampleConstants (freshManifest 7)
        sampleRepos sampleRunner ⟨1⟩).2 = .returned (some a) none ∧
      ((sampleImage .FORMAT_RAW "xz").InstantiateManifest sampleConstants (freshManifest 7)
        sampleRepos sampleRunner ⟨1⟩).1.get? a.pipeline = some p ∧
      p.kind = Kind.xz :=
  ⟨rfl, rfl, rfl,
   (InstantiateManifest_returns_final_export sampleConstants (sampleImage .FORMAT_RAW "xz")
      (freshManifest 7) sampleRepos sampleRunner ⟨1⟩ (Or.inl rfl) (Or.inr rfl)).elim
     fun a h => h.elim fun p hp => ⟨a, p, hp.1, hp.2.2.1, hp.2.2.2.1⟩⟩

/-- C10: `InstantiateManifest` is deterministic and ignores `rng`.  On one
manifest, two calls with the same specification, repositories and runner give
the same graph and the same outcome whatever the two random sources; on two
fresh manifests the outcomes (the artifact or the panic) are equal and the two
graphs are equal stage by stage once the manifest handle is set aside. -/
theorem InstantiateManifest_deterministic (c : Constants) (img : OSTreeImage)
    (repos : List rpmmd.RepoConfig) (runner : runner.Runner) (m : Manifest) (h₁ h₂ : Nat)
    (rng₁ rng₂ : rand.Rand) :
    img.InstantiateManifest c m repos runner rng₁
      = img.InstantiateManifest c m repos runner rng₂ ∧
    (img.InstantiateManifest c (freshManifest h₁) repos runner rng₁).2
      = (img.InstantiateManifest c (freshManifest h₂) repos runner rng₂).2 ∧
    (img.InstantiateManifest c (freshManifest h₁) repos runner rng₁).1.pipelines.map
        Pipeline.eraseHandle
      = (img.InstantiateManifest c (freshManifest h₂) repos runner rng₂).1.pipelines.map
        Pipeline.eraseHandle := by
  simp only [InstantiateManifest_eq_table]
  cases hf : img.Platform.GetImageFormat <;>
  by_cases hx : img.Compression = "xz" <;>
  by_cases he : img.Compression = "" <;>
  simp_all [instantiateTable, freshManifest, Pipeline.eraseHandle, Pipeline.mapBase,
    buildStage, deploymentStage, rawImageStage, qcow2Stage, xzStage]

/-! ## The QCOW2 stage, the shape of the graph and the order of the checks -/

/-- C11: for a QCOW2 platform, whatever the compression string (so for "" and
for "xz" alike), the QCOW2 stage `InstantiateManifest` builds, the only one it
adds, is a child of the Raw-Image stage: it was constructed from that stage's
manifest handle, its name and its filename, which is the Raw-Image default; it
runs in the new Build stage and its `Compat` is the platform's
`GetQCOW2Compat()`. -/
theorem InstantiateManifest_qcow2_stage (c : Constants) (img : OSTreeImage) (m : Manifest)
    (repos : List rpmmd.RepoConfig) (runner : runner.Runner) (rng : rand.Rand)
    (hf : img.Platform.GetImageFormat = .FORMAT_QCOW2) :
    ∃ (q : QCOW2) (r : RawOSTreeImage),
      (img.InstantiateManifest c m repos runner rng).1.get? (m.pipelines.length + 3)
        = some (.qcow2 q) ∧
      (img.InstantiateManifest c m repos runner rng).1.get? (m.pipelines.length + 2)
        = some (.rawOSTreeImage r) ∧
      (∀ p ∈ newStages m (img.InstantiateManifest c m repos runner rng).1,
        p.kind = Kind.qcow2 → p = .qcow2 q) ∧
      q.imgManifest = r.base.manifest ∧ q.imgName = r.base.name ∧
      q.imgFilename = r.Filename ∧ r.Filename = c.rawImageFilename ∧
      q.base.build = some m.pipelines.length ∧
      q.Compat = img.Platform.GetQCOW2Compat := by
  rw [InstantiateManifest_eq_table]
  obtain ⟨h, l⟩ := m
  by_cases hx : img.Compression = "xz" <;>
  by_cases he : img.Compression = "" <;>
  simp_all [instantiateTable, newStages, buildStage, deploymentStage, rawImageStage,
    qcow2Stage, xzStage, Pipeline.kind, Manifest.get?_append_add]

/-- C11, at a QCOW2 platform with "xz" compression on a fresh manifest: the
QCOW2 stage is the fourth stage, built from the Raw-Image stage `image` with
filename `disk.img`, and has compat `1.1`. -/
theorem InstantiateManifest_qcow2_stage_witness :
    (sampleImage .FORMAT_QCOW2 "xz").Platform.GetImageFormat = .FORMAT_QCOW2 ∧
    ∃ (q : QCOW2) (r : RawOSTreeImage),
      ((sampleImage .FORMAT_QCOW2 "xz").InstantiateManifest sampleConstants (freshManifest 7)
        sampleRepos sampleRunner ⟨1⟩).1.get? 3 = some (.qcow2 q) ∧
      ((sampleImage .FORMAT_QCOW2 "xz").InstantiateManifest sampleConstants (freshManifest 7)
        sampleRepos sampleRunner ⟨1⟩).1.get? 2 = some (.rawOSTreeImage r) ∧
      q.imgName = r.base.name ∧ q.imgFilename = r.Filename ∧ q.Compat = "1.1" :=
  ⟨rfl,
   (InstantiateManifest_qcow2_stage sampleConstants (sampleImage .FORMAT_QCOW2 "xz")
      (freshManifest 7) sampleRepos sampleRunner ⟨1⟩ rfl).elim
     fun q h => h.elim fun r hr =>
       ⟨q, r, hr.1, hr.2.1, hr.2.2.2.2.1, hr.2.2.2.2.2.1, hr.2.2.2.2.2.2.2.2⟩⟩

/-- C13: in the graph `InstantiateManifest` builds, on every input and also
when the call panics, the stages added start with the one Build stage and form
a straight line: every later stage holds exactly one input, which designates
the stage right before it (the Build stage for Deployment, Deployment for
RawImage, RawImage for QCOW2, and for XZ the Raw-Image stage on a RAW platform
and the QCOW2 stage on a QCOW2 platform), and every stage after the Build
stage runs in that same Build stage. -/
theorem InstantiateManifest_single_predecessor (c : Constants) (img : OSTreeImage)
    (m : Manifest) (repos : List rpmmd.RepoConfig) (runner : runner.Runner)
    (rng : rand.Rand) :
    straightLine m.pipelines.length
      (newStages m (img.InstantiateManifest c m repos runner rng).1) ∧
    singleInputChain m.pipelines.length
      (newStages m (img.InstantiateManifest c m repos runner rng).1) ∧
    (∃ b : Build,
      (newStages m (img.InstantiateManifest c m repos runner rng).1).head?
        = some (.build b)) ∧
    (∀ q ∈ (newStages m (img.InstantiateManifest c m repos runner rng).1).tail,
      q.kind ≠ Kind.build ∧ q.inputs.length = 1 ∧ q.base.build = some m.pipelines.length) ∧
    (∀ x : XZ, Pipeline.xz x ∈ newStages m (img.InstantiateManifest c m repos runner rng).1 →
      x.imgPipeline + 2
        = (img.InstantiateManifest c m repos runner rng).1.pipelines.length ∧
      ((img.InstantiateManifest c m repos runner rng).1.get? x.imgPipeline).map Pipeline.kind
        = some (if img.Platform.GetImageFormat = .FORMAT_QCOW2 then Kind.qcow2
            else Kind.rawOSTreeImage)) := by
  rw [InstantiateManifest_eq_table]
  obtain ⟨h, l⟩ := m
  cases hf : img.Platform.GetImageFormat <;>
  by_cases hx : img.Compression = "xz" <;>
  by_cases he : img.Compression = "" <;>
  simp_all [instantiateTable, newStages, buildStage, deploymentStage, rawImageStage,
    qcow2Stage, xzStage, Pipeline.kind, Pipeline.base, Pipeline.filename?, Pipeline.inputs,
    Input.designates, straightLine, singleInputChain, Pipeline.follows,
    Manifest.get?_append_add, Nat.add_assoc]

/-- Steps 1 to 3 append the checkpointed Build stage, the Deployment stage and
a Raw-Image stage with its default filename, not exported. -/
theorem stageSteps_eq (c : Constants) (img : OSTreeImage) (m : Manifest)
    (repos : List rpmmd.RepoConfig) (runner : runner.Runner) :
    stageSteps c img m repos runner =
      (⟨m.handle, m.pipelines ++
          [buildStage c m.handle runner repos,
           deploymentStage c img m.handle m.pipelines.length,
           rawImageStage c img m.handle m.pipelines.length (m.pipelines.length + 1)
             c.rawImageFilename false]⟩,
       m.pipelines.length, m.pipelines.length + 2) := by
  obtain ⟨h, l⟩ := m
  simp [stageSteps, NewBuild, Checkpoint, NewOSTreeDeployment, NewRawOStreeImage,
    Manifest.addPipeline, Manifest.setOSTreeDeployment, Manifest.update_append_add,
    Manifest.update_append_length, updateAt, Pipeline.mapBase, buildStage, deploymentStage,
    rawImageStage]

/-- On a RAW platform the format switch, run on what steps 1 to 3 leave, sets
the Raw-Image filename when there is no compression, exports the Raw-Image
stage and hands on its artifact. -/
theorem formatSwitch_raw (c : Constants) (img : OSTreeImage) (h : Nat) (l : List Pipeline)
    (repos : List rpmmd.RepoConfig) (runner : runner.Runner)
    (hf : img.Platform.GetImageFormat = .FORMAT_RAW) :
    formatSwitch c img
        ⟨h, l ++ [buildStage c h runner repos, deploymentStage c img h l.length,
          rawImageStage c img h l.length (l.length + 1) c.rawImageFilename false]⟩
        l.length (l.length + 2)
      = (⟨h, l ++ [buildStage c h runner repos, deploymentStage c img h l.length,
            rawImageStage c img h l.length (l.length + 1)
              (if img.Compression = "" then img.Filename else c.rawImageFilename) true]⟩,
         .ok (l.length + 2,
           some ⟨l.length + 2,
             if img.Compression = "" then img.Filename else c.rawImageFilename⟩)) := by
  by_cases he : img.Compression = "" <;>
  simp [formatSwitch, hf, he, Export, Manifest.setRawOSTreeImage, Manifest.update_append_add,
    Manifest.get?_append_add, updateAt, Pipeline.mapBase, Pipeline.filename?, buildStage,
    deploymentStage, rawImageStage]

/-- On a QCOW2 platform the format switch, run on what steps 1 to 3 leave,
adds the QCOW2 stage, sets its filename when there is no compression, exports
it and hands on its artifact. -/
theorem formatSwitch_qcow2 (c : Constants) (img : OSTreeImage) (h : Nat) (l : List Pipeline)
    (repos : List rpmmd.RepoConfig) (runner : runner.Runner)
    (hf : img.Platform.GetImageFormat = .FORMAT_QCOW2) :
    formatSwitch c img
        ⟨h, l ++ [buildStage c h runner repos, deploymentStage c img h l.length,
          rawImageStage c img h l.length (l.length + 1) c.rawImageFilename false]⟩
        l.length (l.length + 2)
      = (⟨h, l ++ [buildStage c h runner repos, deploymentStage c img h l.length,
            rawImageStage c img h l.length (l.length + 1) c.rawImageFilename false,
            qcow2Stage c img h l.length
              (if img.Compression = "" then img.Filename else c.qcow2Filename)]⟩,
         .ok (l.length + 3,
           some ⟨l.length + 3,
             if img.Compression = "" then img.Filename else c.qcow2Filename⟩)) := by
  by_cases he : img.Compression = "" <;>
  simp [formatSwitch, hf, he, Export, NewQCOW2, Manifest.addPipeline, Manifest.setQCOW2,
    Manifest.getRawOSTreeImage?, Manifest.update_append_add, Manifest.get?_append_add,
    updateAt, Pipeline.mapBase, Pipeline.filename?, buildStage, deploymentStage,
    rawImageStage, qcow2Stage]

/-- C14: for a RAW or QCOW2 platform the format switch always exports the
format-shaped stage (RawImage for RAW, the QCOW2 stage for QCOW2) and hands
its artifact on, before the compression is looked at.  With compression "xz"
the finished graph carries the export mark on exactly two stages, the
format-shaped stage and the XZ stage built on top of it, and the artifact
returned is the XZ one, not the first one; with compression "" exactly one
stage, the format-shaped one, carries the mark and its artifact is returned. -/
theorem InstantiateManifest_export_calls (c : Constants) (img : OSTreeImage) (m : Manifest)
    (repos : List rpmmd.RepoConfig) (runner : runner.Runner) (rng : rand.Rand)
    (hf : img.Platform.GetImageFormat = .FORMAT_RAW ∨
      img.Platform.GetImageFormat = .FORMAT_QCOW2) :
    ∃ (mid : Manifest) (fs : PipelineRef) (k : Kind) (a₁ : artifact.Artifact),
      formatSwitch c img (stageSteps c img m repos runner).1
          (stageSteps c img m repos runner).2.1 (stageSteps c img m repos runner).2.2
        = (mid, .ok (fs, some a₁)) ∧
      img.InstantiateManifest c m repos runner rng
        = compressionSwitch c img mid m.pipelines.length fs (some a₁) ∧
      fs = m.pipelines.length
        + (if img.Platform.GetImageFormat = .FORMAT_QCOW2 then 3 else 2) ∧
      k = (if img.Platform.GetImageFormat = .FORMAT_QCOW2 then Kind.qcow2
        else Kind.rawOSTreeImage) ∧
      a₁.pipeline = fs ∧
      exportedStages m.pipelines.length (newStages m mid) = [(fs, k)] ∧
      (∀ p ∈ newStages m mid, p.kind ≠ Kind.xz) ∧
      (img.Compression = "xz" →
        exportedStages m.pipelines.length
            (newStages m (img.InstantiateManifest c m repos runner rng).1)
          = [(fs, k), (fs + 1, Kind.xz)] ∧
        ∃ a₂ : artifact.Artifact,
          (img.InstantiateManifest c m repos runner rng).2 = .returned (some a₂) none ∧
          a₂.pipeline = fs + 1 ∧ a₂ ≠ a₁) ∧
      (img.Compression = "" →
        exportedStages m.pipelines.length
            (newStages m (img.InstantiateManifest c m repos runner rng).1)
          = [(fs, k)] ∧
        (img.InstantiateManifest c m repos runner rng).2 = .returned (some a₁) none) := by
  rw [InstantiateManifest_eq_table, stageSteps_eq]
  obtain ⟨h, l⟩ := m
  rcases hf with hf | hf
  · refine ⟨_, _, Kind.rawOSTreeImage, _, formatSwitch_raw c img h l repos runner hf, ?_⟩
    by_cases hx : img.Compression = "xz" <;>
    by_cases he : img.Compression = "" <;>
    simp_all [instantiateTable, compressionSwitch, NewXZ, Export, Manifest.addPipeline,
      Manifest.setXZ, Manifest.update_append_add, Manifest.get?_append_add, updateAt,
      Pipeline.mapBase, Pipeline.filename?, Pipeline.kind, Pipeline.base, newStages,
      exportedStages, buildStage, deploymentStage, rawImageStage, xzStage, Nat.add_assoc]
  · refine ⟨_, _, Kind.qcow2, _, formatSwitch_qcow2 c img h l repos runner hf, ?_⟩
    by_cases hx : img.Compression = "xz" <;>
    by_cases he : img.Compression = "" <;>
    simp_all [instantiateTable, compressionSwitch, NewXZ, Export, Manifest.addPipeline,
      Manifest.setXZ, Manifest.update_append_add, Manifest.get?_append_add, updateAt,
      Pipeline.mapBase, Pipeline.filename?, Pipeline.kind, Pipeline.base, newStages,
      exportedStages, buildStage, deploymentStage, rawImageStage, qcow2Stage, xzStage,
      Nat.add_assoc]

/-- C14, at a QCOW2 platform with "xz" compression on a fresh manifest: the
export mark is on the QCOW2 stage and on the XZ stage, and on no other. -/
theorem InstantiateManifest_export_calls_witness :
    (sampleImage .FORMAT_QCOW2 "xz").Platform.GetImageFormat = .FORMAT_QCOW2 ∧
    exportedStages 0
        (newStages (freshManifest 7)
          ((sampleImage .FORMAT_QCOW2 "xz").InstantiateManifest sampleConstants
            (freshManifest 7) sampleRepos sampleRunner ⟨1⟩).1)
      = [(3, Kind.qcow2), (4, Kind.xz)] := by
  refine ⟨rfl, ?_⟩
  obtain ⟨mid, fs, k, a₁, -, -, hfs, hk, -, -, -, hxz, -⟩ :=
    InstantiateManifest_export_calls sampleConstants (sampleImage .FORMAT_QCOW2 "xz")
      (freshManifest 7) sampleRepos sampleRunner ⟨1⟩ (Or.inr rfl)
  subst hfs hk
  exact (hxz rfl).1

/-- C15: the format is checked before the compression.  When the format is
neither RAW nor QCOW2 the call panics with the invalid-image-format fault
whatever the compression string, having built only the Build, Deployment and
Raw-Image stages and exported none.  When the format is RAW or QCOW2 and the
compression is neither "" nor "xz" the call panics with the
unsupported-compression fault, and by then the Build, Deployment and Raw-Image
stages (and the QCOW2 stage on a QCOW2 platform) are built, the format-shaped
stage is exported and no XZ stage exists. -/
theorem InstantiateManifest_check_order (c : Constants) (img : OSTreeImage) (m : Manifest)
    (repos : List rpmmd.RepoConfig) (runner : runner.Runner) (rng : rand.Rand) :
    (img.Platform.GetImageFormat ≠ .FORMAT_RAW →
      img.Platform.GetImageFormat ≠ .FORMAT_QCOW2 →
      (img.InstantiateManifest c m repos runner rng).2 = .panicked .invalidImageFormat ∧
      (newStages m (img.InstantiateManifest c m repos runner rng).1).map Pipeline.kind
        = [Kind.build, Kind.ostreeDeployment, Kind.rawOSTreeImage] ∧
      exportedStages m.pipelines.length
        (newStages m (img.InstantiateManifest c m repos runner rng).1) = []) ∧
    ((img.Platform.GetImageFormat = .FORMAT_RAW ∨
        img.Platform.GetImageFormat = .FORMAT_QCOW2) →
      img.Compression ≠ "" → img.Compression ≠ "xz" →
      (img.InstantiateManifest c m repos runner rng).2
        = .panicked (.unsupportedCompression img.Compression) ∧
      (newStages m (img.InstantiateManifest c m repos runner rng).1).map Pipeline.kind
        = [Kind.build, Kind.ostreeDeployment, Kind.rawOSTreeImage]
          ++ (if img.Platform.GetImageFormat = .FORMAT_QCOW2 then [Kind.qcow2] else []) ∧
      exportedStages m.pipelines.length
          (newStages m (img.InstantiateManifest c m repos runner rng).1)
        = [if img.Platform.GetImageFormat = .FORMAT_QCOW2
            then (m.pipelines.length + 3, Kind.qcow2)
            else (m.pipelines.length + 2, Kind.rawOSTreeImage)]) := by
  rw [InstantiateManifest_eq_table]
  obtain ⟨h, l⟩ := m
  cases hf : img.Platform.GetImageFormat <;>
  by_cases hx : img.Compression = "xz" <;>
  by_cases he : img.Compression = "" <;>
  simp_all [instantiateTable, newStages, exportedStages, buildStage, deploymentStage,
    rawImageStage, qcow2Stage, xzStage, Pipeline.kind, Pipeline.base]

/-- C15, on a fresh manifest: a VHD platform with compression "zz" panics on
the format with three stages built, and a RAW platform with compression "zz"
panics on the compression with the Raw-Image stage already exported. -/
theorem InstantiateManifest_check_order_witness :
    ((sampleImage .FORMAT_VHD "zz").InstantiateManifest sampleConstants (freshManifest 7)
        sampleRepos sampleRunner ⟨1⟩).2 = .panicked .invalidImageFormat ∧
    ((sampleImage .FORMAT_RAW "zz").InstantiateManifest sampleConstants (freshManifest 7)
        sampleRepos sampleRunner ⟨1⟩).2 = .panicked (.unsupportedCompression "zz") ∧
    exportedStages 0
        (newStages (freshManifest 7)
          ((sampleImage .FORMAT_RAW "zz").InstantiateManifest sampleConstants
            (freshManifest 7) sampleRepos sampleRunner ⟨1⟩).1)
      = [(2, Kind.rawOSTreeImage)] :=
  ⟨((InstantiateManifest_check_order sampleConstants (sampleImage .FORMAT_VHD "zz")
      (freshManifest 7) sampleRepos sampleRunner ⟨1⟩).1 (by decide) (by decide)).1,
   ((InstantiateManifest_check_order sampleConstants (sampleImage .FORMAT_RAW "zz")
      (freshManifest 7) sampleRepos sampleRunner ⟨1⟩).2 (Or.inl rfl) (by decide)
      (by decide)).1,
   ((InstantiateManifest_check_order sampleConstants (sampleImage .FORMAT_RAW "zz")
      (freshManifest 7) sampleRepos sampleRunner ⟨1⟩).2 (Or.inl rfl) (by decide)
      (by decide)).2.2⟩

/-! ## The specification is left as it was -/

/-- On a store, `InstantiateManifest` leaves the specification in place and
does to the manifest what it does when the specification is passed by value. -/
theorem store_InstantiateManifest_eq (c : Constants) (s : Store)
    (repos : List rpmmd.RepoConfig) (runner : runner.Runner) (rng : rand.Rand) :
    Store.InstantiateManifest c s repos runner rng =
      ({ img := s.img, m := (s.img.InstantiateManifest c s.m repos runner rng).1 },
       (s.img.InstantiateManifest c s.m repos runner rng).2) := by
  rw [InstantiateManifest_eq_table]
  obtain ⟨img, ⟨h, l⟩⟩ := s
  cases hf : img.Platform.GetImageFormat <;>
  by_cases hx : img.Compression = "xz" <;>
  by_cases he : img.Compression = "" <;>
  simp [Store.InstantiateManifest, Store.formatSwitch, Store.compressionSwitch,
    instantiateTable, hf, hx, he, NewBuild, Checkpoint, NewOSTreeDeployment,
    NewRawOStreeImage, NewQCOW2, NewXZ, Export, Manifest.addPipeline,
    Manifest.setOSTreeDeployment, Manifest.setRawOSTreeImage, Manifest.setQCOW2,
    Manifest.setXZ, Manifest.getRawOSTreeImage?, Manifest.update_append_add,
    Manifest.update_append_length, Manifest.get?_append_add, Manifest.get?_append_length,
    updateAt, Pipeline.mapBase, Pipeline.filename?, buildStage, deploymentStage,
    rawImageStage, qcow2Stage, xzStage]

/-- On a store, the shortcut leaves the specification in place and does to
the manifest what it does when the specification is passed by value. -/
theorem store_ostreeCompressedImagePipelines_eq (c : Constants) (s : Store)
    (b : PipelineRef) :
    Store.ostreeCompressedImagePipelines c s b =
      ({ img := s.img, m := (ostreeCompressedImagePipelines c s.img s.m b).1 },
       (ostreeCompressedImagePipelines c s.img s.m b).2) := by
  rw [ostreeCompressedImagePipelines_eq]
  obtain ⟨img, ⟨h, l⟩⟩ := s
  simp [Store.ostreeCompressedImagePipelines, NewOSTreeDeployment, NewRawOStreeImage, NewXZ,
    Manifest.addPipeline, Manifest.setOSTreeDeployment, Manifest.setXZ,
    Manifest.update_append_add, Manifest.update_append_length, updateAt, deploymentStage,
    rawImageStage, xzStage]

/-- C12: run on a store that holds the image specification and the manifest,
`InstantiateManifest` and `ostreeCompressedImagePipelines` end with the very
specification they started with, so every one of its fields (Platform,
Workload, PartitionTable, Users, Groups, Commit, SysrootReadOnly, Remote,
OSName, KernelOptionsAppend, Keyboard, Locale, Filename, Ignition,
IgnitionPlatform, Compression) has the value it had before the call, whether
the call returns or panics; the manifest and the outcome are the ones computed
with the specification passed by value. -/
theorem specification_unchanged (c : Constants) (s : Store) (b : PipelineRef)
    (repos : List rpmmd.RepoConfig) (runner : runner.Runner) (rng : rand.Rand) :
    (Store.InstantiateManifest c s repos runner rng).1.img = s.img ∧
    (Store.ostreeCompressedImagePipelines c s b).1.img = s.img ∧
    (Store.InstantiateManifest c s repos runner rng).1.m
      = (s.img.InstantiateManifest c s.m repos runner rng).1 ∧
    (Store.InstantiateManifest c s repos runner rng).2
      = (s.img.InstantiateManifest c s.m repos runner rng).2 ∧
    (Store.ostreeCompressedImagePipelines c s b).1.m
      = (image.ostreeCompressedImagePipelines c s.img s.m b).1 ∧
    (Store.ostreeCompressedImagePipelines c s b).2
      = (image.ostreeCompressedImagePipelines c s.img s.m b).2 := by
  rw [store_InstantiateManifest_eq, store_ostreeCompressedImagePipelines_eq]
  exact ⟨rfl, rfl, rfl, rfl, rfl, rfl⟩

end image
